import Mathlib

/-!
Verification of the golang-lambda-deployer deployment pipeline.

This file shallowly embeds the latest, factored revision of the program
(main.go together with the pkg and pkg/deployer packages) as pure Lean
functions over an abstract platform of responses, and proves the claimed
properties of the resolver, publisher, waiter, promoter and log-tail
session against those definitions.

Conventions of the embedding:
- Every remote platform call is recorded as an event (`Ev`) in a trace, in
  the order the source issues the calls; fallible calls take their outcome
  from a `Platform` record of responses.
- `os.Exit(1)` and `log.Fatalf` in the source become the `RunResult.exit1`
  outcome carrying the lines printed at the failure site.
- Paginated listings model the server as a list of pages; a call carrying
  marker `i` returns page `i` and the marker `i + 1` when more pages
  remain, `none` on the terminal page, exactly as the AWS paging contract
  the source loops over.  The loop fuel equals the page count plus one and
  is never exhausted.
- Go byte-string operations are modelled on Lean strings; all inputs of
  interest (names, hashes, ARNs) are ASCII, where the two coincide.
-/

/-- A single log group returned by describe-log-groups: name and ARN. -/
structure LogGroup where
  name : String
  arn : String
deriving DecidableEq

/-- DeployConfig mirrors pkg.DeployConfig: the resolved identity of the run. -/
structure DeployConfig where
  Env : String
  AppName : String
  LambdaName : String
  SourceCodeFilename : String
  BuildsBucket : String
  LogGroupName : String
deriving DecidableEq

/-- A frame delivered on the live-tail event stream, as discriminated by the
switch in handleEventStreamAsync: the session-start acknowledgment, a
session-update carrying log lines, an unrecognized non-nil frame, and the
nil frame a closed channel yields. -/
inductive StreamEvent where
  | sessionStart
  | sessionUpdate (results : List String)
  | unknownEvent
  | nilEvent
deriving DecidableEq

/-- A line written by the consumer: an informational status note, or a
rendered log line from a session-update frame. -/
inductive OutputLine where
  | status (s : String)
  | logLine (s : String)
deriving DecidableEq

/-- How the background consumer of handleEventStreamAsync ends: clean return
on the nil frame, still blocked on the channel, or a fatal abort (log.Fatalf)
on a deferred stream error or an unknown frame type. -/
inductive ConsumerOutcome where
  | cleanExit
  | blocked
  | fatalError (e : String)
  | fatalUnknown
deriving DecidableEq

/-- handleEventStreamAsync (pkg/deployer/tail_logs.go): consume frames in
order; session-start prints a status note and continues; session-update
renders each contained message; in the default branch the deferred stream
error is checked first, then the nil (closed-channel) frame returns, and
any other frame is fatal.  The consumer output and its exit mode. -/
def handleEventStream (deferredErr : Option String) :
    List StreamEvent → List OutputLine × ConsumerOutcome
  | [] => ([], ConsumerOutcome.blocked)
  | StreamEvent.sessionStart :: rest =>
    let r := handleEventStream deferredErr rest
    (OutputLine.status "Logs streaming session started" :: r.1, r.2)
  | StreamEvent.sessionUpdate msgs :: rest =>
    let r := handleEventStream deferredErr rest
    (msgs.map OutputLine.logLine ++ r.1, r.2)
  | StreamEvent.unknownEvent :: _ =>
    match deferredErr with
    | some e => ([], ConsumerOutcome.fatalError e)
    | none => ([], ConsumerOutcome.fatalUnknown)
  | StreamEvent.nilEvent :: _ =>
    match deferredErr with
    | some e => ([], ConsumerOutcome.fatalError e)
    | none => ([], ConsumerOutcome.cleanExit)

/-- The log lines actually rendered (status notes are not log renderings). -/
def renderedLines (out : List OutputLine) : List String :=
  out.filterMap fun l =>
    match l with
    | OutputLine.logLine s => some s
    | OutputLine.status _ => none

/-- strings.TrimSpace: drop leading and trailing whitespace. -/
def goTrimSpace (s : String) : String :=
  String.mk (((s.data.dropWhile Char.isWhitespace).reverse.dropWhile
    Char.isWhitespace).reverse)

/-- The first `n` characters of a string (Go slicing `s[0:n]` on ASCII). -/
def goTake (s : String) (n : Nat) : String :=
  String.mk (s.data.take n)

/-- getCurrentGitCommit (pkg/deployer/build.go): trim the rev-parse output,
take its first seven characters, and append "-dirty" when git status
--porcelain printed anything. -/
def getCurrentGitCommit (commitOut statusOut : String) : String :=
  let commitStr := goTake (goTrimSpace commitOut) 7
  if 0 < statusOut.length then commitStr ++ "-dirty" else commitStr

/-- Build (pkg/deployer/build.go line 35): the artifact filename
`<LambdaName>-<getCurrentGitCommit()>.zip`. -/
def sourceCodeFilename (lambdaName commitOut statusOut : String) : String :=
  lambdaName ++ "-" ++ getCurrentGitCommit commitOut statusOut ++ ".zip"

/-- From the words of the spec only (for comparison with the source):
`<functionName>-<shortCommitHash>[-dirty].zip` where shortCommitHash is the
first 7 characters of the revision identifier and -dirty is appended iff
the working tree is dirty. -/
def specArtifactName (functionName revision : String) (dirty : Bool) : String :=
  functionName ++ "-" ++ goTake revision 7 ++
    (if dirty then "-dirty" else "") ++ ".zip"

/-- strings.TrimSuffix: drop the suffix when present, else return unchanged. -/
def trimSuffix (s suffix : String) : String :=
  if suffix.data.isSuffixOf s.data then
    String.mk (s.data.take (s.data.length - suffix.data.length))
  else s

/-- getARNofLogGroup (pkg/deployer/tail_logs.go): given the single-page
response of the name-prefixed describe-log-groups query, fail when it is
empty, else return the first entry's ARN with any ":*" suffix stripped. -/
def getARNofLogGroup (resp : List LogGroup) : Except String String :=
  match resp with
  | [] => Except.error "No log groups found for the given prefix"
  | g :: _ => Except.ok (trimSuffix g.arn ":*")

/-- strings.Join with a separator, as the source calls it on name lists. -/
def strJoin (sep : String) : List String → String
  | [] => ""
  | [s] => s
  | s :: rest => s ++ sep ++ strJoin sep rest

/-- contains (main.go / tail_logs.go): linear membership scan. -/
def containsStr (slice : List String) (item : String) : Bool :=
  slice.any fun s => s == item

/-- The needle occurs contiguously inside the haystack. -/
def containsSub (hay needle : String) : Prop :=
  ∃ u v, hay.data = u ++ needle.data ++ v

/-- GetAvailableFunctions (pkg/deployer/deployer.go): the ListFunctions
paging loop.  The server holds `pages`; the call at marker `i` yields page
`i` and the marker `i + 1` while further pages remain, `none` on the
terminal page.  `fuel` bounds the iterations of the source's unbounded
loop; the caller passes page count plus one, which is never exhausted. -/
def listFunctionsLoop (pages : List (List String)) :
    Nat → Nat → List String → List String
  | 0, _, acc => acc
  | fuel + 1, i, acc =>
    let acc2 := acc ++ pages.getD i []
    if i + 1 < pages.length then listFunctionsLoop pages fuel (i + 1) acc2
    else acc2

/-- GetAvailableFunctions: drain ListFunctions pages from the first marker. -/
def GetAvailableFunctions (pages : List (List String)) : List String :=
  listFunctionsLoop pages (pages.length + 1) 0 []

/-- getAvailableLogGroups (pkg/deployer/tail_logs.go): the DescribeLogGroups
NextToken paging loop, of the same shape as the functions loop. -/
def describeLogGroupsLoop (pages : List (List String)) :
    Nat → Nat → List String → List String
  | 0, _, acc => acc
  | fuel + 1, i, acc =>
    let acc2 := acc ++ pages.getD i []
    if i + 1 < pages.length then describeLogGroupsLoop pages fuel (i + 1) acc2
    else acc2

/-- getAvailableLogGroups: drain DescribeLogGroups pages. -/
def getAvailableLogGroups (pages : List (List String)) : List String :=
  describeLogGroupsLoop pages (pages.length + 1) 0 []

/-- GetAvailableBuckets (pkg/deployer/deployer.go): ListBuckets is a single
unpaginated call; the function projects the bucket names of its response. -/
def GetAvailableBuckets (bucketNames : List String) : List String :=
  bucketNames

/-- The timeout message the waiter surfaces when the ceiling is exceeded. -/
def waiterTimeoutMsg : String :=
  "exceeded max wait time for FunctionUpdatedV2 waiter"

/-- Modelled from the spec: the FunctionUpdatedV2 waiter's poll loop lives in
the AWS SDK, not in this repository; per the spec it polls the
function-status endpoint with the platform's recommended backoff until the
update is applied, bounded by a wall-clock ceiling.  `status i` is the
i-th poll's answer; `fuel` is the number of polls fitting in the ceiling.
Returns the polls issued and the result. -/
def waiterPoll (status : Nat → Bool) : Nat → Nat → List Nat × Except String Unit
  | 0, _ => ([], Except.error waiterTimeoutMsg)
  | fuel + 1, i =>
    if status i then ([i], Except.ok ())
    else
      let r := waiterPoll status fuel (i + 1)
      (i :: r.1, r.2)

/-- Modelled from the spec: the bounded wait.  With a poll delay of
`delaySec` seconds, at most `maxWaitSec / delaySec + 1` polls fit under the
wall-clock ceiling of `maxWaitSec` seconds. -/
def waiterWait (status : Nat → Bool) (delaySec maxWaitSec : Nat) :
    List Nat × Except String Unit :=
  waiterPoll status (maxWaitSec / delaySec + 1) 0

/-- One remote call of the pipeline, as recorded in a run's trace. -/
inductive Ev where
  | listFunctions
  | listBuckets
  | getFunctionConfiguration (fn : String)
  | describeLogGroupsList
  | describeLogGroupsByName (lg : String)
  | uploadBlob (bucket key sse : String)
  | deleteBlob (bucket key : String)
  | updateFunctionCode (fn bucket key : String)
  | pollFunctionStatus (fn : String) (i : Nat)
  | publishVersion (fn : String)
  | updateAlias (fn aliasName version : String)
  | startLiveTail (arn : String)
deriving DecidableEq

/-- Whether a call mutates platform state. -/
def Ev.mutating : Ev → Bool
  | Ev.uploadBlob _ _ _ => true
  | Ev.deleteBlob _ _ => true
  | Ev.updateFunctionCode _ _ _ => true
  | Ev.publishVersion _ => true
  | Ev.updateAlias _ _ _ => true
  | _ => false

/-- The calls the Deploy stage can issue (upload, code update, status polls,
publish, alias update). -/
def Ev.isDeployKind : Ev → Bool
  | Ev.uploadBlob _ _ _ => true
  | Ev.updateFunctionCode _ _ _ => true
  | Ev.pollFunctionStatus _ _ => true
  | Ev.publishVersion _ => true
  | Ev.updateAlias _ _ _ => true
  | _ => false

/-- The full-listing describe-log-groups call (the tail resolver's check). -/
def Ev.isLogGroupListing : Ev → Bool
  | Ev.describeLogGroupsList => true
  | _ => false

/-- The start-live-tail call. -/
def Ev.isStartTail : Ev → Bool
  | Ev.startLiveTail _ => true
  | _ => false

/-- The version promoter's calls: publish-version and update-alias. -/
def Ev.isPromoterCall : Ev → Bool
  | Ev.publishVersion _ => true
  | Ev.updateAlias _ _ _ => true
  | _ => false

/-- Every event satisfying `q` is preceded by an earlier event satisfying
`p`: scanning left to right, meeting a `q`-event before any `p`-event
falsifies the property, and once a `p`-event is seen it holds. -/
def precededBy (p q : Ev → Bool) : List Ev → Bool
  | [] => true
  | e :: rest => if q e then false else if p e then true else precededBy p q rest

/-- The account's responses to every call a run can make, plus the local
collaborators (git, build toolchain, zip file) the run shells out to. -/
structure Platform where
  functionPages : List (List String)
  buckets : List String
  logGroupPages : List (List String)
  prefixQuery : String → List LogGroup
  gitCommitOutput : String
  gitStatusOutput : String
  buildOk : Except String Unit
  openZip : Except String Unit
  upload : Except String Unit
  updateCode : Except String Unit
  functionStatus : Nat → Bool
  waitDelay : Nat
  publish : Except String String
  aliasUpdate : Except String Unit
  startTail : Except String Unit
  tailFrames : List StreamEvent
  tailErr : Option String

/-- A run's outcome: normal return, or process exit 1 with the lines
printed at the failure site. -/
inductive RunResult where
  | ok
  | exit1 (msgs : List String)
deriving DecidableEq

/-- The S3 server-side encryption the upload sets (types.ServerSideEncryptionAes256). -/
def sseAES : String := "AES256"

/-- Build (pkg/deployer/build.go): read the git revision, query the live
function's architecture (GetFunctionConfiguration), run the toolchain and
zip steps (folded into `buildOk`, local and opaque per the spec), and on
success record the artifact filename in the config. -/
def BuildStep (p : Platform) (cfg : DeployConfig) :
    List Ev × Except String DeployConfig :=
  let archEv := Ev.getFunctionConfiguration cfg.LambdaName
  match p.buildOk with
  | Except.error e => ([archEv], Except.error ("Error building the project: " ++ e))
  | Except.ok _ =>
    ([archEv], Except.ok { cfg with
      SourceCodeFilename :=
        sourceCodeFilename cfg.LambdaName p.gitCommitOutput p.gitStatusOutput })

/-- Deploy (pkg/deployer/deploy.go): uploadToS3 (open the zip, upload it
under its filename with server-side encryption), then UpdateFunctionCode on
the same bucket and key, then the bounded waiter, then PublishVersion, then
UpdateAlias of "canary" to the published version; each failure exits. -/
def Deploy (p : Platform) (cfg : DeployConfig) : List Ev × RunResult :=
  match p.openZip with
  | Except.error e => ([], RunResult.exit1 ["Error opening zip file: " ++ e])
  | Except.ok _ =>
    let upEv := Ev.uploadBlob cfg.BuildsBucket cfg.SourceCodeFilename sseAES
    match p.upload with
    | Except.error e => ([upEv], RunResult.exit1 ["Error uploading zip to S3: " ++ e])
    | Except.ok _ =>
      let updEv := Ev.updateFunctionCode cfg.LambdaName cfg.BuildsBucket cfg.SourceCodeFilename
      match p.updateCode with
      | Except.error e =>
        ([upEv, updEv], RunResult.exit1 ["Error updating Lambda function code: " ++ e])
      | Except.ok _ =>
        let w := waiterWait p.functionStatus p.waitDelay 300
        let pollEvs := w.1.map (Ev.pollFunctionStatus cfg.LambdaName)
        match w.2 with
        | Except.error e =>
          ([upEv, updEv] ++ pollEvs,
           RunResult.exit1 ["Error waiting for function update: " ++ e])
        | Except.ok _ =>
          let pubEv := Ev.publishVersion cfg.LambdaName
          match p.publish with
          | Except.error e =>
            (([upEv, updEv] ++ pollEvs) ++ [pubEv],
             RunResult.exit1 ["Error publishing new Lambda version: " ++ e])
          | Except.ok v =>
            let alEv := Ev.updateAlias cfg.LambdaName "canary" v
            match p.aliasUpdate with
            | Except.error e =>
              (([upEv, updEv] ++ pollEvs) ++ [pubEv, alEv],
               RunResult.exit1 ["Error updating Lambda alias canary: " ++ e])
            | Except.ok _ =>
              (([upEv, updEv] ++ pollEvs) ++ [pubEv, alEv], RunResult.ok)

/-- TailLogs (pkg/deployer/tail_logs.go): drain the log-group listing and
require the configured name in it, resolve the ARN by the name-prefixed
describe call, start the live tail, and consume the stream; a consumer
log.Fatalf aborts the process, otherwise the 300-second timer closes the
stream and the call returns. -/
def TailLogs (p : Platform) (cfg : DeployConfig) : List Ev × RunResult :=
  let names := getAvailableLogGroups p.logGroupPages
  if containsStr names cfg.LogGroupName then
    let resp := p.prefixQuery cfg.LogGroupName
    match getARNofLogGroup resp with
    | Except.error e =>
      ([Ev.describeLogGroupsList, Ev.describeLogGroupsByName cfg.LogGroupName],
       RunResult.exit1 [e ++ " " ++ cfg.LogGroupName])
    | Except.ok arn =>
      match p.startTail with
      | Except.error e =>
        ([Ev.describeLogGroupsList, Ev.describeLogGroupsByName cfg.LogGroupName,
          Ev.startLiveTail arn],
         RunResult.exit1 ["Failed to start streaming: " ++ e])
      | Except.ok _ =>
        let c := handleEventStream p.tailErr p.tailFrames
        ([Ev.describeLogGroupsList, Ev.describeLogGroupsByName cfg.LogGroupName,
          Ev.startLiveTail arn],
         match c.2 with
         | ConsumerOutcome.fatalError e =>
           RunResult.exit1 ["Error occured during streaming: " ++ e]
         | ConsumerOutcome.fatalUnknown => RunResult.exit1 ["Unknown event type"]
         | _ => RunResult.ok)
  else
    ([Ev.describeLogGroupsList],
     RunResult.exit1 ["Log group " ++ cfg.LogGroupName ++ " does not exist",
       "Available log groups are: " ++ strJoin ", " names])

/-- runDeploy (main.go of the factored revision): resolve the function and
bucket listings, then Build, then Deploy, then optionally TailLogs. -/
def runDeploy (p : Platform) (cfg : DeployConfig) (tailFlag : Bool) :
    List Ev × RunResult :=
  let fns := GetAvailableFunctions p.functionPages
  if containsStr fns cfg.LambdaName then
    let bks := GetAvailableBuckets p.buckets
    if containsStr bks cfg.BuildsBucket then
      let b := BuildStep p cfg
      match b.2 with
      | Except.error e =>
        (Ev.listFunctions :: Ev.listBuckets :: b.1, RunResult.exit1 [e])
      | Except.ok cfg2 =>
        let d := Deploy p cfg2
        match d.2 with
        | RunResult.exit1 m =>
          (Ev.listFunctions :: Ev.listBuckets :: (b.1 ++ d.1), RunResult.exit1 m)
        | RunResult.ok =>
          if tailFlag then
            let t := TailLogs p cfg2
            (Ev.listFunctions :: Ev.listBuckets :: (b.1 ++ d.1 ++ t.1), t.2)
          else
            (Ev.listFunctions :: Ev.listBuckets :: (b.1 ++ d.1), RunResult.ok)
    else
      ([Ev.listFunctions, Ev.listBuckets],
       RunResult.exit1 ["S3 bucket " ++ cfg.BuildsBucket ++ " does not exist",
         "Available buckets are: " ++ strJoin ", " bks])
  else
    ([Ev.listFunctions],
     RunResult.exit1 ["Lambda function " ++ cfg.LambdaName ++ " does not exist",
       "Available functions are: " ++ strJoin ", " fns])

/-- The property claimed of every run: scanning the trace, no mutating call
occurs until the function listing, the bucket listing and the log-group
listing have all been issued (the resolution acts that confirm the three
names exist). -/
def c1Scan (sawF sawB sawL : Bool) : List Ev → Bool
  | [] => true
  | e :: rest =>
    if e.mutating && !(sawF && sawB && sawL) then false
    else
      c1Scan (sawF || e == Ev.listFunctions) (sawB || e == Ev.listBuckets)
        (sawL || e == Ev.describeLogGroupsList) rest

/-- All three resolutions precede every mutating call in the trace. -/
def allResolutionsBeforeMutation (tr : List Ev) : Bool :=
  c1Scan false false false tr

/-- A concrete account on which every call succeeds: one function page, the
default bucket, one log-group page, a clean tree at revision abc1234def,
immediate convergence, published version 7, and a tail stream that closes
cleanly at once. -/
def okPlatform : Platform where
  functionPages := [["orders-stag"]]
  buckets := ["e4f-builds"]
  logGroupPages := [["/aws/lambda/orders-stag"]]
  prefixQuery := fun _ =>
    [{ name := "/aws/lambda/orders-stag", arn := "arn:aws:logs:orders-stag:*" }]
  gitCommitOutput := "abc1234def\n"
  gitStatusOutput := ""
  buildOk := Except.ok ()
  openZip := Except.ok ()
  upload := Except.ok ()
  updateCode := Except.ok ()
  functionStatus := fun _ => true
  waitDelay := 2
  publish := Except.ok "7"
  aliasUpdate := Except.ok ()
  startTail := Except.ok ()
  tailFrames := [StreamEvent.nilEvent]
  tailErr := none

/-- The resolved configuration of the concrete run. -/
def okConfig : DeployConfig where
  Env := "stag"
  AppName := "orders"
  LambdaName := "orders-stag"
  SourceCodeFilename := ""
  BuildsBucket := "e4f-builds"
  LogGroupName := "/aws/lambda/orders-stag"

/-- The configuration as the Build stage leaves it: filename recorded. -/
def okBuiltConfig : DeployConfig :=
  { okConfig with SourceCodeFilename := "orders-stag-abc1234.zip" }

/-- The concrete account with a failing blob upload. -/
def failUploadPlatform : Platform :=
  { okPlatform with upload := Except.error "boom" }

/-- The concrete account whose update-function-code call fails. -/
def failUpdatePlatform : Platform :=
  { okPlatform with updateCode := Except.error "denied" }

/-- The concrete account whose function never reports the update applied. -/
def timeoutPlatform : Platform :=
  { okPlatform with functionStatus := fun _ => false, waitDelay := 60 }

/-- The concrete account whose bucket listing lacks the default bucket. -/
def missingBucketPlatform : Platform :=
  { okPlatform with buckets := ["bkt-a", "bkt-b"] }

/-- The concrete account whose function listing is [a, b, c]. -/
def missingPlatform : Platform :=
  { okPlatform with functionPages := [["a", "b", "c"]] }

/-- A configuration asking for a function absent from that listing. -/
def missingConfig : DeployConfig :=
  { okConfig with LambdaName := "orders-z" }

theorem listFunctionsLoop_eq (pages : List (List String)) :
    ∀ fuel i acc, pages.length - i < fuel →
      listFunctionsLoop pages fuel i acc = acc ++ (pages.drop i).flatten := by
  intro fuel
  induction fuel with
  | zero => intro i acc h; omega
  | succ n ih =>
    intro i acc h
    simp only [listFunctionsLoop]
    by_cases hlt : i + 1 < pages.length
    · rw [if_pos hlt, ih (i + 1) _ (by omega)]
      have hi : i < pages.length := by omega
      rw [List.getD_eq_getElem pages [] hi, List.drop_eq_getElem_cons hi,
        List.flatten_cons]
      simp [List.append_assoc]
    · rw [if_neg hlt]
      rcases Nat.lt_or_ge i pages.length with hi | hi
      · rw [List.getD_eq_getElem pages [] hi, List.drop_eq_getElem_cons hi,
          List.flatten_cons]
        have hnil : pages.drop (i + 1) = [] := List.drop_eq_nil_of_le (by omega)
        simp [hnil]
      · rw [List.getD_eq_default pages [] hi, List.drop_eq_nil_of_le hi]
        simp

theorem describeLogGroupsLoop_eq (pages : List (List String)) :
    ∀ fuel i acc, pages.length - i < fuel →
      describeLogGroupsLoop pages fuel i acc = acc ++ (pages.drop i).flatten := by
  intro fuel
  induction fuel with
  | zero => intro i acc h; omega
  | succ n ih =>
    intro i acc h
    simp only [describeLogGroupsLoop]
    by_cases hlt : i + 1 < pages.length
    · rw [if_pos hlt, ih (i + 1) _ (by omega)]
      have hi : i < pages.length := by omega
      rw [List.getD_eq_getElem pages [] hi, List.drop_eq_getElem_cons hi,
        List.flatten_cons]
      simp [List.append_assoc]
    · rw [if_neg hlt]
      rcases Nat.lt_or_ge i pages.length with hi | hi
      · rw [List.getD_eq_getElem pages [] hi, List.drop_eq_getElem_cons hi,
          List.flatten_cons]
        have hnil : pages.drop (i + 1) = [] := List.drop_eq_nil_of_le (by omega)
        simp [hnil]
      · rw [List.getD_eq_default pages [] hi, List.drop_eq_nil_of_le hi]
        simp

/-- C2: both paginated listings (functions via markers, log groups via
continuation tokens) drain every page, returning exactly the concatenation
of all pages' names, so a name found only on a later page is a member of
the result; on a concrete two-page listing, the item only on page two is
found. -/
theorem pagination_drained :
    (∀ pages, GetAvailableFunctions pages = pages.flatten) ∧
    (∀ pages, getAvailableLogGroups pages = pages.flatten) ∧
    (∀ name pages, name ∈ getAvailableLogGroups pages ↔ ∃ page ∈ pages, name ∈ page) ∧
    GetAvailableFunctions [["a"], ["b"]] = ["a", "b"] ∧
    containsStr (getAvailableLogGroups [["g1"], ["g2"]]) "g2" = true := by
  have hf : ∀ pages, GetAvailableFunctions pages = pages.flatten := by
    intro pages
    unfold GetAvailableFunctions
    rw [listFunctionsLoop_eq pages (pages.length + 1) 0 [] (by omega)]
    simp
  have hl : ∀ pages, getAvailableLogGroups pages = pages.flatten := by
    intro pages
    unfold getAvailableLogGroups
    rw [describeLogGroupsLoop_eq pages (pages.length + 1) 0 [] (by omega)]
    simp
  refine ⟨hf, hl, ?_, by decide, by decide⟩
  intro name pages
  rw [hl]
  exact List.mem_flatten

/-- C3: on the frame sequence [SessionStart, SessionUpdate line1,
SessionUpdate line2, nil] with no deferred error, the consumer renders
exactly "line1" then "line2" as log lines and exits cleanly on the nil
terminal frame; the session-start acknowledgment contributes only an
informational status note, not a rendered log line. -/
theorem tail_frames_rendering :
    renderedLines (handleEventStream none
        [StreamEvent.sessionStart, StreamEvent.sessionUpdate ["line1"],
         StreamEvent.sessionUpdate ["line2"], StreamEvent.nilEvent]).1
      = ["line1", "line2"] ∧
    (handleEventStream none
        [StreamEvent.sessionStart, StreamEvent.sessionUpdate ["line1"],
         StreamEvent.sessionUpdate ["line2"], StreamEvent.nilEvent]).2
      = ConsumerOutcome.cleanExit := by
  constructor <;> decide

/-- C4: whenever the frame sequence contains an unrecognized frame and the
deferred stream error is non-nil, the consumer aborts fatally (log.Fatalf
with the stream error), and everything after that frame is irrelevant: the
whole result equals that of the sequence cut right after the unrecognized
frame, so no later frame is rendered. -/
theorem tail_unknown_frame_fatal :
    ∀ (pre post : List StreamEvent) (e : String),
      (handleEventStream (some e) (pre ++ StreamEvent.unknownEvent :: post)).2
        = ConsumerOutcome.fatalError e ∧
      handleEventStream (some e) (pre ++ StreamEvent.unknownEvent :: post)
        = handleEventStream (some e) (pre ++ [StreamEvent.unknownEvent]) := by
  intro pre post e
  induction pre with
  | nil => simp [handleEventStream]
  | cons hd rest ih =>
    obtain ⟨ih1, ih2⟩ := ih
    have ih3 : (handleEventStream (some e) (rest ++ [StreamEvent.unknownEvent])).2
        = ConsumerOutcome.fatalError e := ih2 ▸ ih1
    cases hd with
    | sessionStart => simp [handleEventStream, ih1, ih2, ih3]
    | sessionUpdate msgs => simp [handleEventStream, ih1, ih2, ih3]
    | unknownEvent => simp [handleEventStream]
    | nilEvent => simp [handleEventStream]

/-- C5: the artifact filename is a deterministic function of the function
name, the (trimmed) revision identifier and the dirty flag, equal to the
spec formula functionName-first7[-dirty].zip, and matches the two examples
svc-prod-abc1234.zip and svc-prod-abc1234-dirty.zip. -/
theorem artifact_filename_spec :
    (∀ fn rev st, sourceCodeFilename fn rev st
        = specArtifactName fn (goTrimSpace rev) (decide (0 < st.length))) ∧
    sourceCodeFilename "svc-prod" "abc1234" "" = "svc-prod-abc1234.zip" ∧
    sourceCodeFilename "svc-prod" "abc1234" " M main.go"
      = "svc-prod-abc1234-dirty.zip" := by
  refine ⟨?_, by decide, by decide⟩
  intro fn rev st
  unfold sourceCodeFilename specArtifactName getCurrentGitCommit
  by_cases h : 0 < st.length
  · simp [h, String.append_assoc]
  · simp [h, String.append_assoc]

/-- C10: the live-tail identifier comes from the single name-prefix query
response: the empty response fails, a non-empty response yields the first
entry's ARN with the ":*" suffix stripped; concretely, when two groups
share the configured name "/aws/lambda/app-stag" as a prefix and the
non-exact match is listed first, the session attaches to its ARN rather
than to the exactly matching group's. -/
theorem log_group_arn_first_match :
    getARNofLogGroup [] = Except.error "No log groups found for the given prefix" ∧
    (∀ g gs, getARNofLogGroup (g :: gs) = Except.ok (trimSuffix g.arn ":*")) ∧
    ("/aws/lambda/app-stag".data.isPrefixOf "/aws/lambda/app-stag-old".data = true) ∧
    getARNofLogGroup
        [{ name := "/aws/lambda/app-stag-old", arn := "arn:old:*" },
         { name := "/aws/lambda/app-stag", arn := "arn:exact:*" }]
      = Except.ok "arn:old" ∧
    ("/aws/lambda/app-stag-old" : String) ≠ "/aws/lambda/app-stag" := by
  refine ⟨rfl, ?_, by decide, by rfl, by decide⟩
  intro g gs
  rfl

theorem waiterPoll_never (status : Nat → Bool) (hs : ∀ i, status i = false) :
    ∀ fuel i, (waiterPoll status fuel i).2 = Except.error waiterTimeoutMsg := by
  intro fuel
  induction fuel with
  | zero => intro i; rfl
  | succ n ih => intro i; simp [waiterPoll, hs i, ih]

theorem waiterPoll_length (status : Nat → Bool) :
    ∀ fuel i, (waiterPoll status fuel i).1.length ≤ fuel := by
  intro fuel
  induction fuel with
  | zero => intro i; simp [waiterPoll]
  | succ n ih =>
    intro i
    by_cases h : status i
    · simp [waiterPoll, h]
    · simp only [waiterPoll, h]
      simp only [Bool.false_eq_true, if_false, List.length_cons]
      have := ih (i + 1)
      omega

theorem Deploy_cases (p : Platform) (cfg : DeployConfig) :
    (Deploy p cfg).1 = [] ∨
    (Deploy p cfg).1 = [Ev.uploadBlob cfg.BuildsBucket cfg.SourceCodeFilename sseAES] ∨
    (p.upload = Except.ok () ∧
      ((Deploy p cfg).1
          = [Ev.uploadBlob cfg.BuildsBucket cfg.SourceCodeFilename sseAES,
             Ev.updateFunctionCode cfg.LambdaName cfg.BuildsBucket cfg.SourceCodeFilename] ∨
       (Deploy p cfg).1
          = [Ev.uploadBlob cfg.BuildsBucket cfg.SourceCodeFilename sseAES,
             Ev.updateFunctionCode cfg.LambdaName cfg.BuildsBucket cfg.SourceCodeFilename]
            ++ (waiterWait p.functionStatus p.waitDelay 300).1.map
                 (Ev.pollFunctionStatus cfg.LambdaName) ∨
       (Deploy p cfg).1
          = ([Ev.uploadBlob cfg.BuildsBucket cfg.SourceCodeFilename sseAES,
              Ev.updateFunctionCode cfg.LambdaName cfg.BuildsBucket cfg.SourceCodeFilename]
             ++ (waiterWait p.functionStatus p.waitDelay 300).1.map
                  (Ev.pollFunctionStatus cfg.LambdaName))
            ++ [Ev.publishVersion cfg.LambdaName] ∨
       (∃ v, p.publish = Except.ok v ∧
         (Deploy p cfg).1
            = ([Ev.uploadBlob cfg.BuildsBucket cfg.SourceCodeFilename sseAES,
                Ev.updateFunctionCode cfg.LambdaName cfg.BuildsBucket cfg.SourceCodeFilename]
               ++ (waiterWait p.functionStatus p.waitDelay 300).1.map
                    (Ev.pollFunctionStatus cfg.LambdaName))
              ++ [Ev.publishVersion cfg.LambdaName,
                  Ev.updateAlias cfg.LambdaName "canary" v]))) := by
  cases hz : p.openZip with
  | error e => left; simp [Deploy, hz]
  | ok u =>
    cases u
    cases hu : p.upload with
    | error e => right; left; simp [Deploy, hz, hu]
    | ok u =>
      cases u
      cases hc : p.updateCode with
      | error e => right; right; exact ⟨rfl, Or.inl (by simp [Deploy, hz, hu, hc])⟩
      | ok u =>
        cases u
        cases hw : (waiterWait p.functionStatus p.waitDelay 300).2 with
        | error e =>
          right; right
          exact ⟨rfl, Or.inr (Or.inl (by simp [Deploy, hz, hu, hc, hw]))⟩
        | ok u =>
          cases u
          cases hp : p.publish with
          | error e =>
            right; right
            exact ⟨rfl, Or.inr (Or.inr (Or.inl (by simp [Deploy, hz, hu, hc, hw, hp])))⟩
          | ok v =>
            right; right
            refine ⟨rfl, Or.inr (Or.inr (Or.inr ⟨v, rfl, ?_⟩))⟩
            cases ha : p.aliasUpdate with
            | error e => simp [Deploy, hz, hu, hc, hw, hp, ha]
            | ok u => simp [Deploy, hz, hu, hc, hw, hp, ha]

theorem Deploy_events_kind (p : Platform) (cfg : DeployConfig) :
    ∀ e ∈ (Deploy p cfg).1, e.isDeployKind = true := by
  rcases Deploy_cases p cfg with h | h | ⟨_, h | h | h | ⟨v, _, h⟩⟩
  · rw [h]; intro e he; simp at he
  · rw [h]; intro e he
    simp only [List.mem_singleton] at he
    subst he; rfl
  · rw [h]; intro e he
    simp only [List.mem_cons, List.not_mem_nil, or_false] at he
    rcases he with rfl | rfl <;> rfl
  · rw [h]; intro e he
    simp only [List.cons_append, List.nil_append, List.mem_cons, List.mem_map] at he
    rcases he with rfl | rfl | ⟨i, _, rfl⟩ <;> rfl
  · rw [h]; intro e he
    simp only [List.append_assoc, List.cons_append, List.nil_append, List.mem_cons,
      List.mem_append, List.mem_map, List.mem_singleton, List.not_mem_nil, or_false] at he
    rcases he with rfl | rfl | ⟨i, _, rfl⟩ | rfl <;> rfl
  · rw [h]; intro e he
    simp only [List.append_assoc, List.cons_append, List.nil_append, List.mem_cons,
      List.mem_append, List.mem_map, List.mem_singleton, List.not_mem_nil, or_false] at he
    rcases he with rfl | rfl | ⟨i, _, rfl⟩ | rfl | rfl <;> rfl

theorem filter_promoter_polls (fn : String) (l : List Nat) :
    (l.map (Ev.pollFunctionStatus fn)).filter Ev.isPromoterCall = [] := by
  induction l with
  | nil => rfl
  | cons x xs ih => simp [List.filter_cons, Ev.isPromoterCall, ih]

/-- C6: with all earlier stages succeeding, the promoter issues exactly two
mutating calls in order — publish-version first, then update-alias of
"canary" to exactly the version the publish returned, as the trace's final
two events and the only promoter calls in it; a publish error is fatal and
no alias update is ever issued before publish succeeds; an alias-update
error is fatal too. -/
theorem promoter_two_calls (p : Platform) (cfg : DeployConfig)
    (h1 : p.openZip = Except.ok ()) (h2 : p.upload = Except.ok ())
    (h3 : p.updateCode = Except.ok ())
    (h4 : (waiterWait p.functionStatus p.waitDelay 300).2 = Except.ok ()) :
    (∀ e, p.publish = Except.error e →
      (Deploy p cfg).2 = RunResult.exit1 ["Error publishing new Lambda version: " ++ e] ∧
      ∀ fn a v, Ev.updateAlias fn a v ∉ (Deploy p cfg).1) ∧
    (∀ v, p.publish = Except.ok v →
      (Deploy p cfg).1
        = ([Ev.uploadBlob cfg.BuildsBucket cfg.SourceCodeFilename sseAES,
            Ev.updateFunctionCode cfg.LambdaName cfg.BuildsBucket cfg.SourceCodeFilename]
           ++ (waiterWait p.functionStatus p.waitDelay 300).1.map
                (Ev.pollFunctionStatus cfg.LambdaName))
          ++ [Ev.publishVersion cfg.LambdaName,
              Ev.updateAlias cfg.LambdaName "canary" v] ∧
      (Deploy p cfg).1.filter Ev.isPromoterCall
        = [Ev.publishVersion cfg.LambdaName,
           Ev.updateAlias cfg.LambdaName "canary" v] ∧
      (p.aliasUpdate = Except.ok () → (Deploy p cfg).2 = RunResult.ok) ∧
      (∀ e2, p.aliasUpdate = Except.error e2 →
        (Deploy p cfg).2
          = RunResult.exit1 ["Error updating Lambda alias canary: " ++ e2])) := by
  constructor
  · intro e hp
    constructor
    · simp [Deploy, h1, h2, h3, h4, hp]
    · intro fn a v
      simp [Deploy, h1, h2, h3, h4, hp]
  · intro v hp
    have ht : (Deploy p cfg).1
        = ([Ev.uploadBlob cfg.BuildsBucket cfg.SourceCodeFilename sseAES,
            Ev.updateFunctionCode cfg.LambdaName cfg.BuildsBucket cfg.SourceCodeFilename]
           ++ (waiterWait p.functionStatus p.waitDelay 300).1.map
                (Ev.pollFunctionStatus cfg.LambdaName))
          ++ [Ev.publishVersion cfg.LambdaName,
              Ev.updateAlias cfg.LambdaName "canary" v] := by
      cases ha : p.aliasUpdate with
      | error e2 => simp [Deploy, h1, h2, h3, h4, hp, ha]
      | ok u => cases u; simp [Deploy, h1, h2, h3, h4, hp, ha]
    refine ⟨ht, ?_, ?_, ?_⟩
    · rw [ht]
      simp [List.filter_append, List.filter_cons, Ev.isPromoterCall,
        filter_promoter_polls]
    · intro ha
      simp [Deploy, h1, h2, h3, h4, hp, ha]
    · intro e2 ha
      simp [Deploy, h1, h2, h3, h4, hp, ha]

/-- C7: the publisher uploads the archive under the key equal to the
artifact filename with server-side encryption on; the update-function-code
call is only ever issued right after a successful upload and references
exactly the bucket and key just written; a failure at either step — the
upload, or the update-function-code call — aborts the run right there
(nothing further is issued); and no branch of the stage ever issues a blob
deletion. -/
theorem publisher_upload_then_update (p : Platform) (cfg : DeployConfig) :
    (∀ b k, Ev.deleteBlob b k ∉ (Deploy p cfg).1) ∧
    (∀ e, p.openZip = Except.ok () → p.upload = Except.error e →
      Deploy p cfg = ([Ev.uploadBlob cfg.BuildsBucket cfg.SourceCodeFilename sseAES],
        RunResult.exit1 ["Error uploading zip to S3: " ++ e])) ∧
    (∀ fn b k, Ev.updateFunctionCode fn b k ∈ (Deploy p cfg).1 →
      fn = cfg.LambdaName ∧ b = cfg.BuildsBucket ∧ k = cfg.SourceCodeFilename ∧
      p.upload = Except.ok () ∧
      (Deploy p cfg).1.take 2
        = [Ev.uploadBlob cfg.BuildsBucket cfg.SourceCodeFilename sseAES,
           Ev.updateFunctionCode cfg.LambdaName cfg.BuildsBucket cfg.SourceCodeFilename]) ∧
    (∀ e, p.openZip = Except.ok () → p.upload = Except.ok () →
      p.updateCode = Except.error e →
      Deploy p cfg
        = ([Ev.uploadBlob cfg.BuildsBucket cfg.SourceCodeFilename sseAES,
            Ev.updateFunctionCode cfg.LambdaName cfg.BuildsBucket cfg.SourceCodeFilename],
           RunResult.exit1 ["Error updating Lambda function code: " ++ e])) := by
  refine ⟨?_, ?_, ?_, ?_⟩
  · intro b k hmem
    have hk := Deploy_events_kind p cfg _ hmem
    simp [Ev.isDeployKind] at hk
  · intro e hz hu
    simp [Deploy, hz, hu]
  · rcases Deploy_cases p cfg with h | h | ⟨hu, hcase⟩
    · intro fn b k hm; rw [h] at hm; simp at hm
    · intro fn b k hm; rw [h] at hm; simp at hm
    · intro fn b k hm
      rcases hcase with h | h | h | ⟨v, _, h⟩ <;> rw [h] at hm <;> simp at hm <;>
        obtain ⟨rfl, rfl, rfl⟩ := hm <;> exact ⟨rfl, rfl, rfl, hu, by rw [h]; simp⟩
  · intro e hz hu hc
    simp [Deploy, hz, hu, hc]

theorem precededBy_append_of_none (pf qf : Ev → Bool) (xs ys : List Ev)
    (hx : ∀ e ∈ xs, pf e = false ∧ qf e = false) :
    precededBy pf qf (xs ++ ys) = precededBy pf qf ys := by
  induction xs with
  | nil => rfl
  | cons a as ih =>
    obtain ⟨hp, hq⟩ := hx a (List.mem_cons_self a as)
    rw [List.cons_append]
    simp only [precededBy, hp, hq, Bool.false_eq_true, if_false]
    exact ih fun e he => hx e (List.mem_cons_of_mem a he)

theorem isDeployKind_not_tail (e : Ev) (h : e.isDeployKind = true) :
    e.isLogGroupListing = false ∧ e.isStartTail = false := by
  cases e <;> simp_all [Ev.isDeployKind, Ev.isLogGroupListing, Ev.isStartTail]

theorem TailLogs_facts (p : Platform) (cfg : DeployConfig) :
    precededBy Ev.isLogGroupListing Ev.isStartTail (TailLogs p cfg).1 = true ∧
    (∀ arn, Ev.startLiveTail arn ∈ (TailLogs p cfg).1 →
      containsStr (getAvailableLogGroups p.logGroupPages) cfg.LogGroupName = true) := by
  by_cases hl : containsStr (getAvailableLogGroups p.logGroupPages) cfg.LogGroupName = true
  · cases hg : getARNofLogGroup (p.prefixQuery cfg.LogGroupName) with
    | error e =>
      constructor
      · simp [TailLogs, hl, hg, precededBy, Ev.isLogGroupListing, Ev.isStartTail]
      · intro arn _; exact hl
    | ok arn0 =>
      cases hst : p.startTail with
      | error e =>
        constructor
        · simp [TailLogs, hl, hg, hst, precededBy, Ev.isLogGroupListing, Ev.isStartTail]
        · intro arn _; exact hl
      | ok u =>
        cases u
        constructor
        · simp [TailLogs, hl, hg, hst, precededBy, Ev.isLogGroupListing, Ev.isStartTail]
        · intro arn _; exact hl
  · simp only [Bool.not_eq_true] at hl
    constructor
    · simp [TailLogs, hl, precededBy, Ev.isLogGroupListing, Ev.isStartTail]
    · intro arn hm
      simp [TailLogs, hl] at hm

theorem runDeploy_trace_shape (p : Platform) (cfg : DeployConfig) (tailFlag : Bool) :
    (runDeploy p cfg tailFlag).1 = [Ev.listFunctions] ∨
    (runDeploy p cfg tailFlag).1 = [Ev.listFunctions, Ev.listBuckets] ∨
    (containsStr (GetAvailableFunctions p.functionPages) cfg.LambdaName = true ∧
     containsStr (GetAvailableBuckets p.buckets) cfg.BuildsBucket = true ∧
     ((runDeploy p cfg tailFlag).1
        = [Ev.listFunctions, Ev.listBuckets,
           Ev.getFunctionConfiguration cfg.LambdaName] ∨
      (∃ cfg2 : DeployConfig, cfg2.LogGroupName = cfg.LogGroupName ∧
        ((runDeploy p cfg tailFlag).1
           = Ev.listFunctions :: Ev.listBuckets ::
               ([Ev.getFunctionConfiguration cfg.LambdaName] ++ (Deploy p cfg2).1) ∨
         (runDeploy p cfg tailFlag).1
           = Ev.listFunctions :: Ev.listBuckets ::
               ([Ev.getFunctionConfiguration cfg.LambdaName] ++ (Deploy p cfg2).1
                 ++ (TailLogs p cfg2).1))))) := by
  by_cases hf : containsStr (GetAvailableFunctions p.functionPages) cfg.LambdaName = true
  · by_cases hb : containsStr (GetAvailableBuckets p.buckets) cfg.BuildsBucket = true
    · right; right
      refine ⟨hf, hb, ?_⟩
      cases hbs : p.buildOk with
      | error e => left; simp [runDeploy, BuildStep, hf, hb, hbs]
      | ok u =>
        cases u
        right
        refine ⟨{ cfg with SourceCodeFilename :=
          sourceCodeFilename cfg.LambdaName p.gitCommitOutput p.gitStatusOutput },
          rfl, ?_⟩
        simp only [runDeploy, BuildStep, hf, hb, hbs, if_true]
        split
        · left; simp
        · cases tailFlag
          · left; simp
          · right; simp
    · right; left
      simp only [Bool.not_eq_true] at hb
      simp [runDeploy, hf, hb]
  · left
    simp only [Bool.not_eq_true] at hf
    simp [runDeploy, hf]

theorem containsSub_append_left (t s n : String) (h : containsSub s n) :
    containsSub (t ++ s) n := by
  obtain ⟨u, v, huv⟩ := h
  exact ⟨t.data ++ u, v, by simp [String.data_append, huv, List.append_assoc]⟩

theorem strJoin_mem (names : List String) (n : String) (hn : n ∈ names) :
    containsSub (strJoin ", " names) n := by
  induction names with
  | nil => cases hn
  | cons x rest ih =>
    cases rest with
    | nil =>
      have hx : n = x := List.mem_singleton.mp hn
      subst hx
      exact ⟨[], [], by simp [strJoin]⟩
    | cons y rest2 =>
      rcases List.mem_cons.mp hn with hx | hmem
      · subst hx
        refine ⟨[], (", " ++ strJoin ", " (y :: rest2)).data, ?_⟩
        simp [strJoin, String.data_append, List.append_assoc]
      · obtain ⟨u, v, huv⟩ := ih hmem
        refine ⟨x.data ++ (", ").data ++ u, v, ?_⟩
        simp [strJoin, String.data_append, huv, List.append_assoc]

/-- C8: when a requested name is absent from the drained listing, the run
fails and the printed error enumerates every actually-available name: each
name in the listing occurs inside the message.  Shown for all three
resolution sites — the function and bucket checks in runDeploy and the
log-group check in TailLogs (the bucket check is only reached once the
function check passed, as in the source). -/
theorem resolver_error_enumerates_names (p : Platform) (cfg : DeployConfig) :
    (∀ tailFlag,
      containsStr (GetAvailableFunctions p.functionPages) cfg.LambdaName = false →
      (runDeploy p cfg tailFlag).2
        = RunResult.exit1
            ["Lambda function " ++ cfg.LambdaName ++ " does not exist",
             "Available functions are: "
               ++ strJoin ", " (GetAvailableFunctions p.functionPages)] ∧
      ∀ n ∈ GetAvailableFunctions p.functionPages,
        containsSub
          ("Available functions are: "
            ++ strJoin ", " (GetAvailableFunctions p.functionPages)) n) ∧
    (containsStr (getAvailableLogGroups p.logGroupPages) cfg.LogGroupName = false →
      (TailLogs p cfg).2
        = RunResult.exit1
            ["Log group " ++ cfg.LogGroupName ++ " does not exist",
             "Available log groups are: "
               ++ strJoin ", " (getAvailableLogGroups p.logGroupPages)] ∧
      ∀ n ∈ getAvailableLogGroups p.logGroupPages,
        containsSub
          ("Available log groups are: "
            ++ strJoin ", " (getAvailableLogGroups p.logGroupPages)) n) ∧
    (∀ tailFlag,
      containsStr (GetAvailableFunctions p.functionPages) cfg.LambdaName = true →
      containsStr (GetAvailableBuckets p.buckets) cfg.BuildsBucket = false →
      (runDeploy p cfg tailFlag).2
        = RunResult.exit1
            ["S3 bucket " ++ cfg.BuildsBucket ++ " does not exist",
             "Available buckets are: "
               ++ strJoin ", " (GetAvailableBuckets p.buckets)] ∧
      ∀ n ∈ GetAvailableBuckets p.buckets,
        containsSub
          ("Available buckets are: "
            ++ strJoin ", " (GetAvailableBuckets p.buckets)) n) := by
  refine ⟨?_, ?_, ?_⟩
  · intro tailFlag hf
    constructor
    · simp [runDeploy, hf]
    · intro n hn
      exact containsSub_append_left _ _ _ (strJoin_mem _ n hn)
  · intro hl
    constructor
    · simp [TailLogs, hl]
    · intro n hn
      exact containsSub_append_left _ _ _ (strJoin_mem _ n hn)
  · intro tailFlag hf hb
    constructor
    · simp [runDeploy, hf, hb]
    · intro n hn
      exact containsSub_append_left _ _ _ (strJoin_mem _ n hn)

/-- C9: when the platform never reports the update applied, the bounded
waiter (modelled from the spec, since the poll loop lives in the SDK)
returns the timeout error after at most 300 / delay + 1 polls — the
five-minute wall-clock ceiling the Deploy call passes — the run aborts
with that error, and from the code-update call to the abort the trace
holds only read polls: no publish, no alias update, no rollback of any
kind (in particular no blob deletion). -/
theorem waiter_timeout_bounded (p : Platform) (cfg : DeployConfig)
    (hs : ∀ i, p.functionStatus i = false)
    (h1 : p.openZip = Except.ok ()) (h2 : p.upload = Except.ok ())
    (h3 : p.updateCode = Except.ok ()) :
    (waiterWait p.functionStatus p.waitDelay 300).2 = Except.error waiterTimeoutMsg ∧
    (waiterWait p.functionStatus p.waitDelay 300).1.length ≤ 300 / p.waitDelay + 1 ∧
    (Deploy p cfg).2
      = RunResult.exit1 ["Error waiting for function update: " ++ waiterTimeoutMsg] ∧
    (Deploy p cfg).1
      = [Ev.uploadBlob cfg.BuildsBucket cfg.SourceCodeFilename sseAES,
         Ev.updateFunctionCode cfg.LambdaName cfg.BuildsBucket cfg.SourceCodeFilename]
        ++ (waiterWait p.functionStatus p.waitDelay 300).1.map
             (Ev.pollFunctionStatus cfg.LambdaName) ∧
    (∀ e ∈ (Deploy p cfg).1.drop 2, e.mutating = false) ∧
    (∀ fn, Ev.publishVersion fn ∉ (Deploy p cfg).1) ∧
    (∀ fn a v, Ev.updateAlias fn a v ∉ (Deploy p cfg).1) ∧
    (∀ b k, Ev.deleteBlob b k ∉ (Deploy p cfg).1) := by
  have hw : (waiterWait p.functionStatus p.waitDelay 300).2
      = Except.error waiterTimeoutMsg :=
    waiterPoll_never p.functionStatus hs (300 / p.waitDelay + 1) 0
  have hlen : (waiterWait p.functionStatus p.waitDelay 300).1.length
      ≤ 300 / p.waitDelay + 1 :=
    waiterPoll_length p.functionStatus (300 / p.waitDelay + 1) 0
  have ht : (Deploy p cfg).1
      = [Ev.uploadBlob cfg.BuildsBucket cfg.SourceCodeFilename sseAES,
         Ev.updateFunctionCode cfg.LambdaName cfg.BuildsBucket cfg.SourceCodeFilename]
        ++ (waiterWait p.functionStatus p.waitDelay 300).1.map
             (Ev.pollFunctionStatus cfg.LambdaName) := by
    simp [Deploy, h1, h2, h3, hw]
  refine ⟨hw, hlen, by simp [Deploy, h1, h2, h3, hw], ht, ?_, ?_, ?_, ?_⟩
  · intro e he
    rw [ht] at he
    simp only [List.cons_append, List.nil_append, List.drop_succ_cons,
      List.drop_zero, List.mem_map] at he
    obtain ⟨i, _, rfl⟩ := he
    rfl
  · intro fn hmem
    rw [ht] at hmem
    simp at hmem
  · intro fn a v hmem
    rw [ht] at hmem
    simp at hmem
  · intro b k hmem
    rw [ht] at hmem
    simp at hmem

/-- C1 counterexample: a concrete successful run with tail enabled in which
mutating calls (the upload, code update, publish, alias update) are issued
although the log-group listing — the resolution act for the third named
resource — has not yet happened: the program only lists log groups inside
the tail stage, after deployment.  So the claim that no mutating call
occurs until all three resources are confirmed is false of this code. -/
theorem resolution_before_mutation_cex :
    allResolutionsBeforeMutation (runDeploy okPlatform okConfig true).1 = false ∧
    (runDeploy okPlatform okConfig true).1.any Ev.mutating = true ∧
    (runDeploy okPlatform okConfig true).2 = RunResult.ok := by
  refine ⟨by decide, by decide, by decide⟩

/-- C1 amended: in every run, mutating calls occur only after the function
listing and the bucket listing have confirmed the configured names (those
two listings are the first two calls of any trace containing a mutation,
and both membership checks passed); the log group is confirmed too, but
only inside the optional tail stage: every start-live-tail call is
preceded by the log-group listing with the configured name found in it. -/
theorem resolution_before_mutation_amended (p : Platform) (cfg : DeployConfig)
    (tailFlag : Bool) :
    ((runDeploy p cfg tailFlag).1.any Ev.mutating = true →
      containsStr (GetAvailableFunctions p.functionPages) cfg.LambdaName = true ∧
      containsStr (GetAvailableBuckets p.buckets) cfg.BuildsBucket = true ∧
      (runDeploy p cfg tailFlag).1.take 2 = [Ev.listFunctions, Ev.listBuckets]) ∧
    (∀ arn, Ev.startLiveTail arn ∈ (runDeploy p cfg tailFlag).1 →
      containsStr (getAvailableLogGroups p.logGroupPages) cfg.LogGroupName = true ∧
      precededBy Ev.isLogGroupListing Ev.isStartTail (runDeploy p cfg tailFlag).1
        = true) := by
  rcases runDeploy_trace_shape p cfg tailFlag with h | h |
    ⟨hf, hb, h | ⟨cfg2, hlg, h | h⟩⟩
  · constructor
    · intro hmut
      rw [h] at hmut
      simp [Ev.mutating] at hmut
    · intro arn hm
      rw [h] at hm
      simp at hm
  · constructor
    · intro hmut
      rw [h] at hmut
      simp [Ev.mutating] at hmut
    · intro arn hm
      rw [h] at hm
      simp at hm
  · constructor
    · intro _
      exact ⟨hf, hb, by rw [h]; simp⟩
    · intro arn hm
      rw [h] at hm
      simp at hm
  · constructor
    · intro _
      refine ⟨hf, hb, ?_⟩
      rw [h]; simp
    · intro arn hm
      rw [h] at hm
      simp only [List.cons_append, List.nil_append, List.mem_cons] at hm
      rcases hm with h1 | h1 | h1 | h1
      · simp at h1
      · simp at h1
      · simp at h1
      · have hk := Deploy_events_kind p cfg2 _ h1
        simp [Ev.isDeployKind] at hk
  · constructor
    · intro _
      refine ⟨hf, hb, ?_⟩
      rw [h]; simp
    · intro arn hm
      have hsplit : Ev.listFunctions :: Ev.listBuckets ::
            ([Ev.getFunctionConfiguration cfg.LambdaName] ++ (Deploy p cfg2).1
              ++ (TailLogs p cfg2).1)
          = ([Ev.listFunctions, Ev.listBuckets,
              Ev.getFunctionConfiguration cfg.LambdaName] ++ (Deploy p cfg2).1)
            ++ (TailLogs p cfg2).1 := by
        simp
      have hx : ∀ e ∈ [Ev.listFunctions, Ev.listBuckets,
            Ev.getFunctionConfiguration cfg.LambdaName] ++ (Deploy p cfg2).1,
          Ev.isLogGroupListing e = false ∧ Ev.isStartTail e = false := by
        intro e he
        rcases List.mem_append.mp he with h2 | h2
        · simp only [List.mem_cons, List.not_mem_nil, or_false] at h2
          rcases h2 with rfl | rfl | rfl <;>
            exact ⟨rfl, rfl⟩
        · exact isDeployKind_not_tail e (Deploy_events_kind p cfg2 e h2)
      have hmem : Ev.startLiveTail arn ∈ (TailLogs p cfg2).1 := by
        rw [h, hsplit] at hm
        rcases List.mem_append.mp hm with h2 | h2
        · exact absurd ((hx _ h2).2) (by simp [Ev.isStartTail])
        · exact h2
      constructor
      · have := (TailLogs_facts p cfg2).2 arn hmem
        rwa [hlg] at this
      · rw [h, hsplit, precededBy_append_of_none _ _ _ _ hx]
        exact (TailLogs_facts p cfg2).1

/-- Witness for the amended C1 at the concrete successful run: both
resolution facts hold there and the trace starts with the two listings. -/
theorem resolution_before_mutation_amended_witness :
    containsStr (GetAvailableFunctions okPlatform.functionPages)
        okConfig.LambdaName = true ∧
    containsStr (GetAvailableBuckets okPlatform.buckets)
        okConfig.BuildsBucket = true ∧
    (runDeploy okPlatform okConfig true).1.take 2
      = [Ev.listFunctions, Ev.listBuckets] :=
  (resolution_before_mutation_amended okPlatform okConfig true).1 (by decide)

/-- Witness for C6 at the concrete run: all stages up to the waiter succeed,
publish returns version 7, the promoter calls are exactly publish then
alias-to-7, and the run ends successfully. -/
theorem promoter_two_calls_witness :
    okPlatform.publish = Except.ok "7" ∧
    (Deploy okPlatform okBuiltConfig).1.filter Ev.isPromoterCall
      = [Ev.publishVersion okBuiltConfig.LambdaName,
         Ev.updateAlias okBuiltConfig.LambdaName "canary" "7"] ∧
    (Deploy okPlatform okBuiltConfig).2 = RunResult.ok :=
  ⟨rfl,
   ((promoter_two_calls okPlatform okBuiltConfig rfl rfl rfl rfl).2
     "7" rfl).2.1,
   ((promoter_two_calls okPlatform okBuiltConfig rfl rfl rfl rfl).2
     "7" rfl).2.2.1 rfl⟩

/-- Witness for C7 at two concrete failing runs: with the failing upload,
Deploy ends after the single upload call with the upload error; with the
failing update-function-code call, Deploy ends right after the update call
with the update error, the blob left in place in both. -/
theorem publisher_upload_then_update_witness :
    failUploadPlatform.openZip = Except.ok () ∧
    failUploadPlatform.upload = Except.error "boom" ∧
    Deploy failUploadPlatform okBuiltConfig
      = ([Ev.uploadBlob okBuiltConfig.BuildsBucket
            okBuiltConfig.SourceCodeFilename sseAES],
         RunResult.exit1 ["Error uploading zip to S3: " ++ "boom"]) ∧
    failUpdatePlatform.updateCode = Except.error "denied" ∧
    Deploy failUpdatePlatform okBuiltConfig
      = ([Ev.uploadBlob okBuiltConfig.BuildsBucket
            okBuiltConfig.SourceCodeFilename sseAES,
          Ev.updateFunctionCode okBuiltConfig.LambdaName
            okBuiltConfig.BuildsBucket okBuiltConfig.SourceCodeFilename],
         RunResult.exit1 ["Error updating Lambda function code: " ++ "denied"]) :=
  ⟨rfl, rfl,
   (publisher_upload_then_update failUploadPlatform okBuiltConfig).2.1 "boom" rfl rfl,
   rfl,
   (publisher_upload_then_update failUpdatePlatform okBuiltConfig).2.2.2
     "denied" rfl rfl rfl⟩

/-- Witness for C8 at two concrete runs: the function listing [a, b, c]
with an absent requested function, and the bucket listing [bkt-a, bkt-b]
with the default bucket absent — each run exits with the enumerating
message. -/
theorem resolver_error_enumerates_names_witness :
    containsStr (GetAvailableFunctions missingPlatform.functionPages)
        missingConfig.LambdaName = false ∧
    ((runDeploy missingPlatform missingConfig false).2
        = RunResult.exit1
            ["Lambda function " ++ missingConfig.LambdaName ++ " does not exist",
             "Available functions are: "
               ++ strJoin ", " (GetAvailableFunctions missingPlatform.functionPages)] ∧
     ∀ n ∈ GetAvailableFunctions missingPlatform.functionPages,
       containsSub
         ("Available functions are: "
           ++ strJoin ", " (GetAvailableFunctions missingPlatform.functionPages)) n) ∧
    containsStr (GetAvailableBuckets missingBucketPlatform.buckets)
        okConfig.BuildsBucket = false ∧
    ((runDeploy missingBucketPlatform okConfig false).2
        = RunResult.exit1
            ["S3 bucket " ++ okConfig.BuildsBucket ++ " does not exist",
             "Available buckets are: "
               ++ strJoin ", " (GetAvailableBuckets missingBucketPlatform.buckets)] ∧
     ∀ n ∈ GetAvailableBuckets missingBucketPlatform.buckets,
       containsSub
         ("Available buckets are: "
           ++ strJoin ", " (GetAvailableBuckets missingBucketPlatform.buckets)) n) :=
  ⟨by decide,
   (resolver_error_enumerates_names missingPlatform missingConfig).1 false (by decide),
   by decide,
   (resolver_error_enumerates_names missingBucketPlatform okConfig).2.2 false
     (by decide) (by decide)⟩

/-- Witness for C9 at the concrete never-converging run: the waiter times
out and Deploy aborts with the waiter error. -/
theorem waiter_timeout_bounded_witness :
    (waiterWait timeoutPlatform.functionStatus timeoutPlatform.waitDelay 300).2
      = Except.error waiterTimeoutMsg ∧
    (Deploy timeoutPlatform okBuiltConfig).2
      = RunResult.exit1 ["Error waiting for function update: " ++ waiterTimeoutMsg] :=
  ⟨(waiter_timeout_bounded timeoutPlatform okBuiltConfig
      (fun _ => rfl) rfl rfl rfl).1,
   (waiter_timeout_bounded timeoutPlatform okBuiltConfig
      (fun _ => rfl) rfl rfl rfl).2.2.1⟩
